import Mathlib

/-!
# Verification of the nuxt-mcp streaming RPC transport and session routing

A shallow embedding, in Lean 4, of the session registry, the `/sse` and
`/messages` H3 route handlers (`createMcpH3App`), the example `add` tool,
the Vite plugin's route-root/URL resolution (`ViteMcp`) and the IDE
config-file update logic (`updateConfigs`) of the `nuxt-mcp` repository,
together with theorems settling the specification's claims about them.

JavaScript `Map<string, T>` objects are embedded as association lists with
insert-or-replace (`mapSet`), delete (`mapDelete`) and lookup (`mapGet`)
matching `Map.prototype.set/delete/get`. JavaScript numbers are embedded
as integers (`Int`); string coercion `String(n)` is `toString`.
-/

namespace NuxtMcp

/-! ## Association-list model of a JavaScript `Map<string, α>` -/

/-- `Map.prototype.get`: the value stored under `k`, if any. -/
def mapGet (m : List (String × α)) (k : String) : Option α :=
  match m with
  | [] => none
  | (k', v) :: rest => if k' = k then some v else mapGet rest k

/-- `Map.prototype.set`: replaces the entry under `k` in place if present,
otherwise appends a new entry (JS `Map` preserves insertion order). -/
def mapSet (m : List (String × α)) (k : String) (v : α) : List (String × α) :=
  match m with
  | [] => [(k, v)]
  | (k', v') :: rest => if k' = k then (k, v) :: rest else (k', v') :: mapSet rest k v

/-- `Map.prototype.delete`: removes the entry stored under `k`. -/
def mapDelete (m : List (String × α)) (k : String) : List (String × α) :=
  match m with
  | [] => []
  | (k', v') :: rest => if k' = k then mapDelete rest k else (k', v') :: mapDelete rest k

/-- The keys of the map, in order. -/
def mapKeys (m : List (String × α)) : List String :=
  m.map Prod.fst

/-- Well-formedness of the embedding: each key occurs at most once,
as is forced for a genuine JS `Map`. -/
def keysNodup (m : List (String × α)) : Prop :=
  (mapKeys m).Nodup

instance (m : List (String × α)) : Decidable (keysNodup m) := by
  unfold keysNodup; infer_instance

@[simp] theorem mapGet_nil (k : String) : mapGet ([] : List (String × α)) k = none := rfl

@[simp] theorem mapKeys_nil : mapKeys ([] : List (String × α)) = [] := rfl

@[simp] theorem mapKeys_cons (p : String × α) (m : List (String × α)) :
    mapKeys (p :: m) = p.1 :: mapKeys m := rfl

theorem mapGet_mapSet_self (m : List (String × α)) (k : String) (v : α) :
    mapGet (mapSet m k v) k = some v := by
  induction m with
  | nil => simp [mapSet, mapGet]
  | cons p rest ih =>
    obtain ⟨k', v'⟩ := p
    by_cases h : k' = k
    · simp [mapSet, h, mapGet]
    · simp [mapSet, h, mapGet, ih]

theorem mapGet_mapSet_ne (m : List (String × α)) (k k' : String) (v : α) (h : k ≠ k') :
    mapGet (mapSet m k v) k' = mapGet m k' := by
  induction m with
  | nil => simp [mapSet, mapGet, h]
  | cons p rest ih =>
    obtain ⟨k₀, v₀⟩ := p
    by_cases hk : k₀ = k
    · subst hk
      simp [mapSet, mapGet, h]
    · simp [mapSet, hk, mapGet, ih]

theorem mapGet_mapDelete_self (m : List (String × α)) (k : String) :
    mapGet (mapDelete m k) k = none := by
  induction m with
  | nil => simp [mapDelete]
  | cons p rest ih =>
    obtain ⟨k₀, v₀⟩ := p
    by_cases hk : k₀ = k
    · simpa [mapDelete, hk] using ih
    · simp [mapDelete, hk, mapGet, ih]

theorem mapGet_mapDelete_ne (m : List (String × α)) (k k' : String) (h : k ≠ k') :
    mapGet (mapDelete m k) k' = mapGet m k' := by
  induction m with
  | nil => simp [mapDelete]
  | cons p rest ih =>
    obtain ⟨k₀, v₀⟩ := p
    by_cases hk : k₀ = k
    · subst hk
      simp [mapDelete, mapGet, h, ih]
    · simp [mapDelete, hk, mapGet, ih]

theorem mapKeys_mapSet_of_mem (m : List (String × α)) (k : String) (v : α)
    (h : k ∈ mapKeys m) : mapKeys (mapSet m k v) = mapKeys m := by
  induction m with
  | nil => simp at h
  | cons p rest ih =>
    obtain ⟨k₀, v₀⟩ := p
    by_cases hk : k₀ = k
    · simp [mapSet, hk]
    · have h' : k ∈ mapKeys rest := by
        simp only [mapKeys, List.map_cons] at h
        rcases List.mem_cons.mp h with h | h
        · exact absurd h.symm hk
        · exact h
      simp [mapSet, hk, ih h']

theorem mapKeys_mapSet_of_not_mem (m : List (String × α)) (k : String) (v : α)
    (h : k ∉ mapKeys m) : mapKeys (mapSet m k v) = mapKeys m ++ [k] := by
  induction m with
  | nil => simp [mapSet]
  | cons p rest ih =>
    obtain ⟨k₀, v₀⟩ := p
    simp only [mapKeys, List.map_cons, List.mem_cons, not_or] at h
    simp [mapSet, Ne.symm h.1, ih h.2]

theorem keysNodup_mapSet (m : List (String × α)) (k : String) (v : α)
    (h : keysNodup m) : keysNodup (mapSet m k v) := by
  by_cases hm : k ∈ mapKeys m
  · unfold keysNodup
    rw [mapKeys_mapSet_of_mem m k v hm]
    exact h
  · unfold keysNodup
    rw [mapKeys_mapSet_of_not_mem m k v hm]
    simpa [List.nodup_append] using ⟨h, hm⟩

theorem mapKeys_mapDelete_sublist (m : List (String × α)) (k : String) :
    (mapKeys (mapDelete m k)).Sublist (mapKeys m) := by
  induction m with
  | nil => simp [mapDelete]
  | cons p rest ih =>
    obtain ⟨k₀, v₀⟩ := p
    by_cases hk : k₀ = k
    · simpa [mapDelete, hk] using ih.cons k₀
    · simpa [mapDelete, hk] using ih.cons₂ k₀

theorem keysNodup_mapDelete (m : List (String × α)) (k : String)
    (h : keysNodup m) : keysNodup (mapDelete m k) :=
  List.Nodup.sublist (mapKeys_mapDelete_sublist m k) h

theorem mem_mapKeys_of_mapGet (m : List (String × α)) (k : String) (v : α)
    (h : mapGet m k = some v) : k ∈ mapKeys m := by
  induction m with
  | nil => simp [mapGet] at h
  | cons p rest ih =>
    obtain ⟨k₀, v₀⟩ := p
    by_cases hk : k₀ = k
    · simp [mapKeys, hk]
    · simp only [mapGet, if_neg hk] at h
      rw [mapKeys_cons]
      exact List.mem_cons_of_mem _ (ih h)

/-! ## Sessions, the registry, and the H3 route handlers of `createMcpH3App` -/

/-- An `SSEServerTransport` as observed by this development: the session
identifier generated when the `/sse` connection opened, and the outbound
event stream of that one connection.

Modelled from the spec: the class `SSEServerTransport` itself lives in the
`@modelcontextprotocol/sdk` dependency, outside this repository's sources;
per spec section 4.3, a Session holds an opaque `id` and an `outbound`
handle, and the response to a message routed to the Session is pushed onto
that Session's `outbound` — no other component writes to it. -/
structure SSETransport where
  sessionId : String
  outbound : List String
  deriving Repr, DecidableEq

/-- Modelled from the spec: `transport.handlePostMessage` (SDK code) hands
the posted body to the server for dispatch, and the resulting envelope is
delivered on this transport's own outbound stream (spec sections 4.3 and
4.4: the RPC result travels over the stream connection, not the POST
response). We record the handled body on the outbound stream. -/
def handlePostMessage (t : SSETransport) (body : String) : SSETransport :=
  { t with outbound := t.outbound ++ [body] }

/-- The per-app `clientTransports` map of `createMcpH3App`:
`new Map<string, SSEServerTransport>()`. -/
abbrev Registry := List (String × SSETransport)

/-- A JavaScript value as it can appear for
`event.node.req.headers['x-session-id']` (`string | string[] | undefined`
in Node) or for `getQuery(event).sessionId`. -/
inductive JSVal where
  | undefined
  | str (s : String)
  | strs (l : List String)
  deriving Repr, DecidableEq

/-- JavaScript truthiness on these values: `undefined` and the empty string
are falsy; an array is always truthy. -/
def JSVal.truthy : JSVal → Bool
  | .undefined => false
  | .str s => s ≠ ""
  | .strs _ => true

/-- JavaScript `a || b`. -/
def jsOr (a b : JSVal) : JSVal :=
  if a.truthy then a else b

/-- One HTTP request to the `/messages` route, with the parts the handler
reads: the method, the `x-session-id` header, the `sessionId` query
parameter, and the body. -/
structure MessagesRequest where
  method : String
  headerSessionId : JSVal
  querySessionId : JSVal
  body : String
  deriving Repr, DecidableEq

/-- An error thrown via h3's `createError`. -/
structure H3Error where
  statusCode : Nat
  statusMessage : String
  deriving Repr, DecidableEq

/-- The session-directed actions the `/messages` handler performs, in
order: looking a session id up in `clientTransports`, reading the request
body, and dispatching to a transport. -/
inductive Effect where
  | lookup (sid : String)
  | readBody
  | dispatch (sid : String)
  deriving Repr, DecidableEq

/-- The `/messages` route handler of `createMcpH3App`, translated from the
source:

1. `if (event.method !== 'POST') throw createError({ statusCode: 405, ... })`;
2. `const clientId = event.node.req.headers['x-session-id'] || getQuery(event).sessionId`;
3. `if (!clientId || typeof clientId !== 'string') throw createError({ statusCode: 400, ... })`;
4. `const transport = clientTransports.get(clientId)`;
   `if (!transport) throw createError({ statusCode: 404, ... })`;
5. `await readBody(event)`; `await transport.handlePostMessage(...)`.

Returns the call's outcome, the registry afterwards (the transport found
under the posted id now carries the handled message on its outbound
stream), and the trace of session-directed actions. -/
def handleMessages (reg : Registry) (req : MessagesRequest) :
    Except H3Error Unit × Registry × List Effect :=
  if req.method ≠ "POST" then
    (.error ⟨405, "Method Not Allowed"⟩, reg, [])
  else
    match jsOr req.headerSessionId req.querySessionId with
    | .str s =>
      if s = "" then
        (.error ⟨400, "Client ID not provided"⟩, reg, [])
      else
        match mapGet reg s with
        | none => (.error ⟨404, "Transport not found"⟩, reg, [.lookup s])
        | some t =>
          (.ok (), mapSet reg s (handlePostMessage t req.body),
            [.lookup s, .readBody, .dispatch s])
    | _ => (.error ⟨400, "Client ID not provided"⟩, reg, [])

/-- The `/sse` route handler of `createMcpH3App`: a fresh transport is
created for the connection (`sid` is the generated `transport.sessionId`)
and stored with `clientTransports.set(transport.sessionId, transport)`. -/
def openSession (reg : Registry) (sid : String) : Registry :=
  mapSet reg sid ⟨sid, []⟩

/-- The `close` listener the `/sse` handler installs on the connection:
`res.on('close', () => clientTransports.delete(transport.sessionId))`. -/
def closeSession (reg : Registry) (sid : String) : Registry :=
  mapDelete reg sid

/-- Registry states reachable from the empty map a fresh `createMcpH3App`
starts with, under the only three operations that touch `clientTransports`:
a stream open, a stream close, and a `/messages` call. -/
inductive Reachable : Registry → Prop where
  | empty : Reachable []
  | sse (reg : Registry) (sid : String) : Reachable reg → Reachable (openSession reg sid)
  | close (reg : Registry) (sid : String) : Reachable reg → Reachable (closeSession reg sid)
  | message (reg : Registry) (req : MessagesRequest) :
      Reachable reg → Reachable (handleMessages reg req).2.1

theorem mapKeys_handleMessages (reg : Registry) (req : MessagesRequest) :
    mapKeys (handleMessages reg req).2.1 = mapKeys reg := by
  unfold handleMessages
  split
  · rfl
  · split
    · split
      · rfl
      · split
        · rfl
        · apply mapKeys_mapSet_of_mem
          apply mem_mapKeys_of_mapGet
          assumption
    · rfl

theorem keysNodup_handleMessages (reg : Registry) (req : MessagesRequest)
    (h : keysNodup reg) : keysNodup (handleMessages reg req).2.1 := by
  unfold keysNodup
  rw [mapKeys_handleMessages]
  exact h

theorem keysNodup_of_reachable (reg : Registry) (h : Reachable reg) :
    keysNodup reg := by
  induction h with
  | empty => simp [keysNodup, mapKeys]
  | sse reg sid _ ih => exact keysNodup_mapSet reg sid _ ih
  | close reg sid _ ih => exact keysNodup_mapDelete reg sid ih
  | message reg req _ ih => exact keysNodup_handleMessages reg req ih

/-! ## Claims about the transport layer -/

/-- Claim C7: the `/messages` endpoint accepts only POST — any other method
fails with a 405 Method Not Allowed error, the registry is untouched, and
no session lookup, body read, or dispatch occurs (empty effect trace), so
the session identifier is never consulted. -/
theorem messages_rejects_non_post (reg : Registry) (req : MessagesRequest)
    (h : req.method ≠ "POST") :
    handleMessages reg req = (.error ⟨405, "Method Not Allowed"⟩, reg, []) := by
  unfold handleMessages
  rw [if_pos h]

/-- Witness for `messages_rejects_non_post`: a GET to `/messages` with a
valid session header is still rejected with 405 and no effects. -/
theorem messages_rejects_non_post_witness :
    handleMessages [] ⟨"GET", .str "abc123", .undefined, "{}"⟩ =
      (.error ⟨405, "Method Not Allowed"⟩, [], []) :=
  messages_rejects_non_post [] ⟨"GET", .str "abc123", .undefined, "{}"⟩ (by decide)

/-- The guard `!clientId || typeof clientId !== 'string'` of the
`/messages` handler: the computed client id passes iff it is a non-empty
string. -/
def validClientId : JSVal → Bool
  | .str s => s ≠ ""
  | _ => false

/-- Claim C4: a POST to `/messages` carrying no usable session identifier
(the value computed from the `x-session-id` header and the `sessionId`
query parameter is absent, empty, or not a string) fails with the
400-equivalent error, with the registry unchanged and no session-directed
effect performed. -/
theorem messages_rejects_missing_session_id (reg : Registry)
    (req : MessagesRequest) (hm : req.method = "POST")
    (h : validClientId (jsOr req.headerSessionId req.querySessionId) = false) :
    handleMessages reg req = (.error ⟨400, "Client ID not provided"⟩, reg, []) := by
  unfold handleMessages
  rw [if_neg (by simp [hm])]
  cases hjs : jsOr req.headerSessionId req.querySessionId with
  | undefined => rfl
  | strs l => rfl
  | str s =>
    rw [hjs] at h
    simp [validClientId] at h
    simp [h]

/-- Witness for `messages_rejects_missing_session_id`: a POST with neither
header nor query parameter yields the 400 error and leaves the registry
alone. -/
theorem messages_rejects_missing_session_id_witness :
    handleMessages [] ⟨"POST", .undefined, .undefined, "{}"⟩ =
      (.error ⟨400, "Client ID not provided"⟩, [], []) :=
  messages_rejects_missing_session_id [] ⟨"POST", .undefined, .undefined, "{}"⟩ rfl rfl

/-- Claim C2: posting to `/messages` with a session identifier that is not
in the registry fails with the 404-equivalent error (and, being a total
function, never hangs or crashes), the registry is unchanged and nothing is
dispatched; closing a session removes its id from the registry, so a
subsequent post with that id fails with the same 404 error. -/
theorem messages_unknown_session_rejected (reg : Registry) (sid : String)
    (q : JSVal) (body : String) (hs : sid ≠ "") :
    (mapGet reg sid = none →
      handleMessages reg ⟨"POST", .str sid, q, body⟩ =
        (.error ⟨404, "Transport not found"⟩, reg, [.lookup sid])) ∧
    mapGet (closeSession reg sid) sid = none ∧
    handleMessages (closeSession reg sid) ⟨"POST", .str sid, q, body⟩ =
      (.error ⟨404, "Transport not found"⟩, closeSession reg sid, [.lookup sid]) := by
  have hdel : mapGet (closeSession reg sid) sid = none :=
    mapGet_mapDelete_self reg sid
  refine ⟨fun h => ?_, hdel, ?_⟩
  · simp [handleMessages, jsOr, JSVal.truthy, hs, h]
  · simp [handleMessages, jsOr, JSVal.truthy, hs, hdel]

/-- Witness for `messages_unknown_session_rejected`: with one open session
`abc123`, posting to the never-opened id `nope` is rejected with 404, and
after closing `abc123` a post to it is rejected with 404 as well. -/
theorem messages_unknown_session_rejected_witness :
    (mapGet (openSession [] "abc123") "nope" = none →
      handleMessages (openSession [] "abc123") ⟨"POST", .str "nope", .undefined, "{}"⟩ =
        (.error ⟨404, "Transport not found"⟩, openSession [] "abc123",
          [.lookup "nope"])) ∧
    mapGet (closeSession (openSession [] "abc123") "nope") "nope" = none ∧
    handleMessages (closeSession (openSession [] "abc123") "nope")
        ⟨"POST", .str "nope", .undefined, "{}"⟩ =
      (.error ⟨404, "Transport not found"⟩,
        closeSession (openSession [] "abc123") "nope", [.lookup "nope"]) :=
  messages_unknown_session_rejected (openSession [] "abc123") "nope" .undefined "{}"
    (by decide)

/-- Claim C10: session-identifier precedence — when the `x-session-id`
header holds a non-empty string, the query parameter is ignored entirely
(the handler behaves identically for every query value, and the lookup
targets the header value); the query parameter is the value used exactly
when the header is absent or empty, by the semantics of JavaScript `||`. -/
theorem messages_header_precedence (reg : Registry) (s : String) (q : JSVal)
    (body : String) (hs : s ≠ "") :
    (handleMessages reg ⟨"POST", .str s, q, body⟩ =
      handleMessages reg ⟨"POST", .str s, .undefined, body⟩) ∧
    (∃ rest, (handleMessages reg ⟨"POST", .str s, q, body⟩).2.2 =
      .lookup s :: rest) ∧
    (∀ q' : JSVal, jsOr .undefined q' = q' ∧ jsOr (.str "") q' = q') := by
  refine ⟨?_, ?_, fun q' => ⟨rfl, by simp [jsOr, JSVal.truthy]⟩⟩
  · cases hm : mapGet reg s with
    | none => simp [handleMessages, jsOr, JSVal.truthy, hs, hm]
    | some t => simp [handleMessages, jsOr, JSVal.truthy, hs, hm]
  · cases hm : mapGet reg s with
    | none => exact ⟨[], by simp [handleMessages, jsOr, JSVal.truthy, hs, hm]⟩
    | some t =>
      exact ⟨[.readBody, .dispatch s],
        by simp [handleMessages, jsOr, JSVal.truthy, hs, hm]⟩

/-- Witness for `messages_header_precedence`: with session `abc123` open,
a header `abc123` wins over a query value `other`. -/
theorem messages_header_precedence_witness :
    (handleMessages (openSession [] "abc123")
        ⟨"POST", .str "abc123", .str "other", "{}"⟩ =
      handleMessages (openSession [] "abc123")
        ⟨"POST", .str "abc123", .undefined, "{}"⟩) ∧
    (∃ rest, (handleMessages (openSession [] "abc123")
        ⟨"POST", .str "abc123", .str "other", "{}"⟩).2.2 =
      .lookup "abc123" :: rest) ∧
    (∀ q' : JSVal, jsOr .undefined q' = q' ∧ jsOr (.str "") q' = q') :=
  messages_header_precedence (openSession [] "abc123") "abc123" (.str "other")
    "{}" (by decide)

/-- Claim C1: session isolation — a POST bearing open session A's
identifier leaves the transport stored under any other identifier B
untouched (B's outbound stream receives nothing), every session-directed
effect of the call targets A only, and when A's transport exists the one
registry entry that changes is A's, which receives the handled message. -/
theorem session_isolation (reg : Registry) (A B : String) (hAB : A ≠ B)
    (hA : A ≠ "") (tB : SSETransport) (hB : mapGet reg B = some tB)
    (q : JSVal) (body : String) :
    mapGet (handleMessages reg ⟨"POST", .str A, q, body⟩).2.1 B = some tB ∧
    (∀ e ∈ (handleMessages reg ⟨"POST", .str A, q, body⟩).2.2,
      e = .lookup A ∨ e = .readBody ∨ e = .dispatch A) ∧
    (∀ tA, mapGet reg A = some tA →
      (handleMessages reg ⟨"POST", .str A, q, body⟩).2.1 =
        mapSet reg A (handlePostMessage tA body)) := by
  cases hm : mapGet reg A with
  | none =>
    refine ⟨?_, ?_, ?_⟩
    · simp [handleMessages, jsOr, JSVal.truthy, hA, hm, hB]
    · intro e he
      simp [handleMessages, jsOr, JSVal.truthy, hA, hm] at he
      simp [he]
    · intro tA htA
      exact Option.noConfusion htA
  | some tA' =>
    refine ⟨?_, ?_, ?_⟩
    · simp [handleMessages, jsOr, JSVal.truthy, hA, hm,
        mapGet_mapSet_ne reg A B _ hAB, hB]
    · intro e he
      simp [handleMessages, jsOr, JSVal.truthy, hA, hm] at he
      rcases he with he | he | he <;> simp [he]
    · intro tA htA
      injection htA with h
      subst h
      simp [handleMessages, jsOr, JSVal.truthy, hA, hm]

/-- Witness for `session_isolation`: sessions `abc123` and `xyz789` are
open; a post to `abc123` leaves `xyz789`'s (empty) outbound stream exactly
as it was and dispatches only to `abc123`. -/
theorem session_isolation_witness :
    mapGet (handleMessages (openSession (openSession [] "abc123") "xyz789")
        ⟨"POST", .str "abc123", .undefined, "{}"⟩).2.1 "xyz789" =
      some ⟨"xyz789", []⟩ ∧
    (∀ e ∈ (handleMessages (openSession (openSession [] "abc123") "xyz789")
        ⟨"POST", .str "abc123", .undefined, "{}"⟩).2.2,
      e = .lookup "abc123" ∨ e = .readBody ∨ e = .dispatch "abc123") ∧
    (∀ tA, mapGet (openSession (openSession [] "abc123") "xyz789") "abc123" =
        some tA →
      (handleMessages (openSession (openSession [] "abc123") "xyz789")
          ⟨"POST", .str "abc123", .undefined, "{}"⟩).2.1 =
        mapSet (openSession (openSession [] "abc123") "xyz789") "abc123"
          (handlePostMessage tA "{}")) :=
  session_isolation (openSession (openSession [] "abc123") "xyz789")
    "abc123" "xyz789" (by decide) (by decide) ⟨"xyz789", []⟩ (by decide)
    .undefined "{}"

/-- Claim C3: registry mutation discipline — the `/messages` handler never
inserts into or removes from `clientTransports` (its key list is
unchanged); the `/sse` open inserts exactly the new session (all other
keys read as before) and the close listener removes exactly that session;
and in every reachable registry state each session id is stored at most
once. -/
theorem registry_mutation_discipline (reg : Registry) (req : MessagesRequest)
    (sid : String) (hr : Reachable reg) :
    mapKeys (handleMessages reg req).2.1 = mapKeys reg ∧
    (mapGet (openSession reg sid) sid = some ⟨sid, []⟩ ∧
      ∀ k, k ≠ sid → mapGet (openSession reg sid) k = mapGet reg k) ∧
    (mapGet (closeSession reg sid) sid = none ∧
      ∀ k, k ≠ sid → mapGet (closeSession reg sid) k = mapGet reg k) ∧
    (∀ k, (mapKeys reg).count k ≤ 1) := by
  refine ⟨mapKeys_handleMessages reg req, ⟨mapGet_mapSet_self reg sid _, ?_⟩,
    ⟨mapGet_mapDelete_self reg sid, ?_⟩, ?_⟩
  · intro k hk
    exact mapGet_mapSet_ne reg sid k _ (Ne.symm hk)
  · intro k hk
    exact mapGet_mapDelete_ne reg sid k (Ne.symm hk)
  · exact fun k =>
      List.nodup_iff_count_le_one.mp (keysNodup_of_reachable reg hr) k

/-- Witness for `registry_mutation_discipline`: evaluated at the reachable
registry holding exactly the open session `abc123`. -/
theorem registry_mutation_discipline_witness :
    mapKeys (handleMessages (openSession [] "abc123")
        ⟨"POST", .str "abc123", .undefined, "{}"⟩).2.1 =
      mapKeys (openSession [] "abc123") ∧
    (mapGet (openSession (openSession [] "abc123") "xyz789") "xyz789" =
        some ⟨"xyz789", []⟩ ∧
      ∀ k, k ≠ "xyz789" →
        mapGet (openSession (openSession [] "abc123") "xyz789") k =
          mapGet (openSession [] "abc123") k) ∧
    (mapGet (closeSession (openSession [] "abc123") "xyz789") "xyz789" = none ∧
      ∀ k, k ≠ "xyz789" →
        mapGet (closeSession (openSession [] "abc123") "xyz789") k =
          mapGet (openSession [] "abc123") k) ∧
    (∀ k, (mapKeys (openSession [] "abc123")).count k ≤ 1) :=
  registry_mutation_discipline (openSession [] "abc123")
    ⟨"POST", .str "abc123", .undefined, "{}"⟩ "xyz789"
    (Reachable.sse [] "abc123" Reachable.empty)

/-! ## The example `add` tool of `src/server.ts` -/

/-- One typed content part of a tool result: `{ type: 'text', text }`. -/
structure TextContent where
  type : String
  text : String
  deriving Repr, DecidableEq

/-- A tool call result: `{ content: [...] }`. -/
structure CallToolResult where
  content : List TextContent
  deriving Repr, DecidableEq

/-- The parameters of the `add` tool, `{ a: z.number(), b: z.number() }`.
JavaScript numbers are embedded as integers. -/
structure AddParams where
  a : Int
  b : Int
  deriving Repr, DecidableEq

/-- The handler body of the `add` tool from `src/server.ts`:
`async ({ a, b }) => ({ content: [{ type: 'text', text: String(a + b) }] })`. -/
def addHandler (p : AddParams) : CallToolResult :=
  ⟨[⟨"text", toString (p.a + p.b)⟩]⟩

/-- Modelled from the spec: `server.tool(name, ...)` stores the handler
under `name` in the server's tool registry (the `McpServer` registry class
itself lives in the `@modelcontextprotocol/sdk` dependency, outside this
repository's sources; spec section 4.2 describes it as a name-keyed
handler table). -/
def registerTool (m : List (String × (AddParams → CallToolResult)))
    (name : String) (h : AddParams → CallToolResult) :
    List (String × (AddParams → CallToolResult)) :=
  mapSet m name h

/-- The tool registry of the example server after startup:
`server.tool('add', 'Add two numbers...', {a, b}, async ({a, b}) => ...)`. -/
def serverTools : List (String × (AddParams → CallToolResult)) :=
  registerTool [] "add" addHandler

/-- Modelled from the spec: dispatch of a tool call by method name (spec
section 4.2, `dispatch`): look the handler up by name and invoke it on the
validated params. -/
def dispatchTool (m : List (String × (AddParams → CallToolResult)))
    (name : String) (p : AddParams) : Option CallToolResult :=
  (mapGet m name).map (fun h => h p)

/-- Claim C5: the `add` tool is functionally correct — for every pair of
numbers `a` and `b`, invoking the handler registered under the name `add`
with params `{a, b}` returns a result whose content is exactly
`[{type: 'text', text: String(a + b)}]`; in particular `a = 2, b = 3`
yields the text `"5"`. -/
theorem add_tool_correct :
    (∀ a b : Int, dispatchTool serverTools "add" ⟨a, b⟩ =
      some ⟨[⟨"text", toString (a + b)⟩]⟩) ∧
    dispatchTool serverTools "add" ⟨2, 3⟩ = some ⟨[⟨"text", "5"⟩]⟩ := by
  refine ⟨fun a b => rfl, rfl⟩

/-! ## Duplicate handler registration -/

/-- Modelled from the spec: the Handler Registry's `register` operation in
this repository's permissive/overwrite form (spec sections 4.2 and 8, P5,
and the design note on permissive overwrite-on-duplicate-registration; the
registry class lives in the SDK dependency, outside this repository's
sources). Registration is total — it never fails — and a same-named
registration replaces the stored handler. -/
def registerHandler {α : Type} (m : List (String × α)) (name : String)
    (h : α) : List (String × α) :=
  mapSet m name h

/-- Claim C6: duplicate-registration policy — after registering two
handlers under the same name in one namespace, the last one registered is
the one callable, the name is stored exactly once (never both, never
neither), the registry stays well-formed, and the registration calls
themselves are total functions that cannot fail. -/
theorem duplicate_registration_last_wins {α : Type} (m : List (String × α))
    (name : String) (h₁ h₂ : α) (hm : keysNodup m) :
    mapGet (registerHandler (registerHandler m name h₁) name h₂) name = some h₂ ∧
    (mapKeys (registerHandler (registerHandler m name h₁) name h₂)).count name = 1 ∧
    keysNodup (registerHandler (registerHandler m name h₁) name h₂) := by
  have hget : mapGet (registerHandler (registerHandler m name h₁) name h₂) name = some h₂ :=
    mapGet_mapSet_self _ name h₂
  have hnd : keysNodup (registerHandler (registerHandler m name h₁) name h₂) :=
    keysNodup_mapSet _ name h₂ (keysNodup_mapSet m name h₁ hm)
  refine ⟨hget, ?_, hnd⟩
  exact List.count_eq_one_of_mem hnd (mem_mapKeys_of_mapGet _ name h₂ hget)

/-- Witness for `duplicate_registration_last_wins`: re-registering `add`
over a registry that already holds `greeting` leaves exactly the second
handler callable. -/
theorem duplicate_registration_last_wins_witness :
    mapGet (registerHandler (registerHandler [("greeting", 0)] "add" 1) "add" 2)
      "add" = some 2 ∧
    (mapKeys (registerHandler (registerHandler [("greeting", 0)] "add" 1)
      "add" 2)).count "add" = 1 ∧
    keysNodup (registerHandler (registerHandler [("greeting", (0 : Nat))] "add" 1)
      "add" 2) :=
  duplicate_registration_last_wins [("greeting", (0 : Nat))] "add" 1 2 (by decide)

/-! ## Route root and advertised URL resolution in `ViteMcp` -/

/-- The fields of `ViteMcpOptions` that `ViteMcp` reads to build the
advertised URL: `host?: string`, `port?: number`, `mcpRouteRoot?: string`
and the deprecated `mcpPath?: string`; `none` is TypeScript `undefined`. -/
structure PluginOptions where
  host : Option String := none
  port : Option Nat := none
  mcpRouteRoot : Option String := none
  mcpPath : Option String := none
  deriving Repr, DecidableEq

/-- JavaScript `a ?? b` on an optional value (only `undefined`/`null` fall
through). -/
def jsNullish {α : Type} (a : Option α) (b : α) : α :=
  match a with
  | some x => x
  | none => b

/-- `const mcpRoute = options.mcpRouteRoot ?? options.mcpPath ?? '/__mcp'`
from `packages/vite-plugin-mcp/src/index.ts`. -/
def resolveMcpRoute (options : PluginOptions) : String :=
  jsNullish options.mcpRouteRoot (jsNullish options.mcpPath "/__mcp")

/-- JavaScript `a || b` on an optional string (`undefined` and `''` are
falsy). -/
def jsOrStr (a : Option String) (b : String) : String :=
  match a with
  | some s => if s = "" then b else s
  | none => b

/-- JavaScript `a || b` on an optional number (`undefined` and `0` are
falsy). -/
def jsOrNum (a : Option Nat) (b : Nat) : Nat :=
  match a with
  | some n => if n = 0 then b else n
  | none => b

/-- The advertised SSE URL computed in `configureServer`:
the template literal
`${protocol}://${options.host || 'localhost'}:${options.port || port}${mcpRoute}/sse`
with `protocol = vite.config.server.https ? 'https' : 'http'` and `port`
the Vite dev server's configured port. -/
def resolveSseUrl (options : PluginOptions) (https : Bool)
    (serverPort : Nat) : String :=
  (if https then "https" else "http") ++ "://" ++
    jsOrStr options.host "localhost" ++ ":" ++
    toString (jsOrNum options.port serverPort) ++
    resolveMcpRoute options ++ "/sse"

/-- The route root as the specification words it: `options.mcpRouteRoot` if
given, else the deprecated `options.mcpPath` if given, else `/__mcp`. -/
def specRouteRoot (options : PluginOptions) : String :=
  ((options.mcpRouteRoot).orElse (fun _ => options.mcpPath)).getD "/__mcp"

/-- The advertised SSE URL as the specification words it:
`protocol://host:port` followed by the route root and `/sse`, the host
defaulting to `localhost` and the port defaulting to the dev server's. -/
def specSseUrl (options : PluginOptions) (https : Bool)
    (serverPort : Nat) : String :=
  (if https then "https" else "http") ++ "://" ++
    (options.host).getD "localhost" ++ ":" ++
    toString ((options.port).getD serverPort) ++
    specRouteRoot options ++ "/sse"

/-- Claim C8: for every options value the computed route root is
`options.mcpRouteRoot` if given, else the deprecated `options.mcpPath` if
given, else `/__mcp`; and — for host and port values that are given
non-degenerately (the code treats the empty-string host and port `0` as
absent, JavaScript `||`) — the advertised SSE URL is exactly
`protocol://host:port` followed by the route root and `/sse`, host
defaulting to `localhost` and port to the dev server's port. -/
theorem sse_url_resolution (options : PluginOptions) (https : Bool)
    (serverPort : Nat) (hh : options.host ≠ some "")
    (hp : options.port ≠ some 0) :
    resolveMcpRoute options = specRouteRoot options ∧
    resolveSseUrl options https serverPort = specSseUrl options https serverPort := by
  have hroute : resolveMcpRoute options = specRouteRoot options := by
    cases hr : options.mcpRouteRoot <;> cases hq : options.mcpPath <;>
      simp [resolveMcpRoute, specRouteRoot, jsNullish, hr, hq, Option.orElse]
  have hhost : jsOrStr options.host "localhost" = (options.host).getD "localhost" := by
    cases h : options.host with
    | none => rfl
    | some s =>
      have hs : s ≠ "" := fun hs => hh (by rw [h, hs])
      simp [jsOrStr, hs]
  have hport : jsOrNum options.port serverPort = (options.port).getD serverPort := by
    cases h : options.port with
    | none => rfl
    | some n =>
      have hn : n ≠ 0 := fun hn => hp (by rw [h, hn])
      simp [jsOrNum, hn]
  exact ⟨hroute, by simp [resolveSseUrl, specSseUrl, hroute, hhost, hport]⟩

/-- Witness for `sse_url_resolution`: no `mcpRouteRoot`, a deprecated
`mcpPath` of `/custom`, no host or port overrides, plain http on the dev
server's port 5173. -/
theorem sse_url_resolution_witness :
    resolveMcpRoute ⟨none, none, none, some "/custom"⟩ =
      specRouteRoot ⟨none, none, none, some "/custom"⟩ ∧
    resolveSseUrl ⟨none, none, none, some "/custom"⟩ false 5173 =
      specSseUrl ⟨none, none, none, some "/custom"⟩ false 5173 :=
  sse_url_resolution ⟨none, none, none, some "/custom"⟩ false 5173
    (by decide) (by decide)

/-! ## IDE config-file updates (`updateConfigs` in vite-plugin-mcp) -/

/-- The three IDE config targets, `SupportedUpdateConfigType`:
`'cursor' | 'vscode' | 'windsurf'`. -/
inductive ConfigType where
  | cursor
  | vscode
  | windsurf
  deriving Repr, DecidableEq

/-- The `updateConfig` option,
`'auto' | false | MaybeArray<SupportedUpdateConfigType>` (default
`'auto'`). `single` is a bare, non-array config type. -/
inductive UpdateConfigOption where
  | off
  | auto
  | single (t : ConfigType)
  | list (l : List ConfigType)
  deriving Repr, DecidableEq

/-- The directory-existence observations `updateConfigs` makes with
`existsSync`: `.cursor` and `.vscode` under the workspace root, and
`~/.codeium/windsurf`. -/
structure FsEnv where
  cursorDirExists : Bool
  vscodeDirExists : Bool
  windsurfDirExists : Bool
  deriving Repr, DecidableEq

/-- The `configs` list `updateConfigs` computes: under `'auto'`, the
targets whose directories exist (in the source's cursor, vscode, windsurf
order); an array is taken as-is; anything else — including a bare string,
which fails the `Array.isArray` test — yields `[]`. The `=== false` early
return happens before this computation and is modelled in
`updateConfigsWrites`. -/
def resolveConfigs (u : UpdateConfigOption) (env : FsEnv) : List ConfigType :=
  match u with
  | .auto =>
      (if env.cursorDirExists then [ConfigType.cursor] else []) ++
      (if env.vscodeDirExists then [ConfigType.vscode] else []) ++
      (if env.windsurfDirExists then [ConfigType.windsurf] else [])
  | .list l => l
  | _ => []

/-- The config files `updateConfigs` writes, in source order: the cursor
block writes `.cursor/mcp.json` iff `configs.includes('cursor')`, the
vscode block writes `.vscode/mcp.json` iff `configs.includes('vscode')`,
and the windsurf block writes `~/.codeium/windsurf/mcp_config.json` iff
`configs.includes('windsurf')`; with `updateConfig === false` the function
returns before writing anything. -/
def updateConfigsWrites (u : UpdateConfigOption) (env : FsEnv) : List ConfigType :=
  if u = .off then []
  else
    (if ConfigType.cursor ∈ resolveConfigs u env then [ConfigType.cursor] else []) ++
    (if ConfigType.vscode ∈ resolveConfigs u env then [ConfigType.vscode] else []) ++
    (if ConfigType.windsurf ∈ resolveConfigs u env then [ConfigType.windsurf] else [])

/-- Claim C9: persisting the endpoint URL is fully controlled by the
`updateConfig` option — with `updateConfig: false` no config file is
written at all; a file is written exactly when its config type is selected
(and `updateConfig` is not `false`); and under `'auto'` a type is selected
exactly when its directory exists. -/
theorem update_configs_frame (u : UpdateConfigOption) (env : FsEnv) :
    updateConfigsWrites .off env = [] ∧
    (∀ t : ConfigType, t ∈ updateConfigsWrites u env ↔
      (u ≠ .off ∧ t ∈ resolveConfigs u env)) ∧
    (∀ t : ConfigType, t ∈ resolveConfigs .auto env ↔
      ((t = .cursor ∧ env.cursorDirExists = true) ∨
       (t = .vscode ∧ env.vscodeDirExists = true) ∨
       (t = .windsurf ∧ env.windsurfDirExists = true))) := by
  obtain ⟨c, v, w⟩ := env
  refine ⟨by simp [updateConfigsWrites], ?_, ?_⟩
  · intro t
    by_cases hu : u = .off
    · subst hu
      simp [updateConfigsWrites]
    · unfold updateConfigsWrites
      rw [if_neg hu]
      cases t <;>
        by_cases h1 : ConfigType.cursor ∈ resolveConfigs u ⟨c, v, w⟩ <;>
        by_cases h2 : ConfigType.vscode ∈ resolveConfigs u ⟨c, v, w⟩ <;>
        by_cases h3 : ConfigType.windsurf ∈ resolveConfigs u ⟨c, v, w⟩ <;>
        simp [h1, h2, h3, hu]
  · intro t
    cases c <;> cases v <;> cases w <;> cases t <;> simp [resolveConfigs]

end NuxtMcp
